import Mathlib

/-
Verification of the mhl command layer (src/mhl/commands.py) against its
natural-language specification.

The embedding translates the `seal`, `check` and `record` commands and the
shared helpers `seal_file_path`, `commit_session` and `test_for_missing_files`
from src/mhl/commands.py.  The collaborating modules (hasher.py, history.py,
generator.py, traverse.py, logger.py) are not part of the sources; where a
claim depends on them they are modelled from the spec, and every such
definition carries a doc comment starting with "Modelled from the spec:".

Filesystem-dependent inputs are parameters of the embedding:
  - the traversal output (`post_order_lexicographic`) is passed as an explicit
    list of (folder path, sorted tagged children) pairs,
  - file hashing (`create_filehash`) is a pure function argument
    fh : HashFormat -> Path -> String representing a snapshot of file contents,
  - file sizes and modification times are function arguments.
-/

namespace MhlSpec

abbrev Path := String
abbrev HashFormat := String

/-- A recorded hash entry: a (format, value) pair, as in hashlist.MHLHashEntry. -/
structure HashEntry where
  hash_format : HashFormat
  hash_string : String
deriving DecidableEq, Repr

/-- One media-hash record of a generation: a path, a directory flag and the
hash entries recorded for that path (at most one per format). -/
structure MediaHashRecord where
  path : Path
  is_directory : Bool
  hash_entries : List HashEntry
deriving DecidableEq, Repr

/-- Modelled from the spec: history.py (MHLHistory) is not in the sources.
A history is the ordered sequence of generations, earliest first; each
generation is the ordered list of its media-hash records.  Paths are kept in
the same canonical (absolute) form used by the traversal, folding the
relative/absolute translation (get_relative_file_path) and the nested-history
resolution (find_history_for_path) into the identity, which no claim under
verification depends on. -/
structure MHLHistory where
  generations : List (List MediaHashRecord)
deriving DecidableEq, Repr

/-- Modelled from the spec: set_of_file_paths — the union over all generations
of all recorded paths (file and directory paths alike). -/
def setOfFilePaths (h : MHLHistory) : List Path :=
  (h.generations.flatten.map (fun r => r.path)).dedup

/-- Modelled from the spec: find_original_hash_entry_for_path — the earliest
recorded entry for the path across the history's generations (generations are
scanned in order, earliest first; a record without entries contributes none). -/
def findOriginalHashEntry (h : MHLHistory) (p : Path) : Option HashEntry :=
  h.generations.findSome? (fun g =>
    g.findSome? (fun r => if r.path = p then r.hash_entries.head? else none))

/-- Modelled from the spec: the earliest recorded hash value for the path in
one given format, used by the generation session to verify new observations. -/
def findOriginalEntryForFormat (h : MHLHistory) (p : Path) (fmt : HashFormat) :
    Option String :=
  h.generations.findSome? (fun g =>
    g.findSome? (fun r =>
      if r.path = p then
        (r.hash_entries.find? (fun e => e.hash_format = fmt)).map
          (fun e => e.hash_string)
      else none))

/-- Modelled from the spec: find_existing_hash_formats_for_path — the union of
formats recorded across generations for the path, in first-encountered order. -/
def findExistingHashFormats (h : MHLHistory) (p : Path) : List HashFormat :=
  ((h.generations.flatten.filter (fun r => r.path = p)).flatMap
      (fun r => r.hash_entries)).foldl
    (fun acc e => if e.hash_format ∈ acc then acc else acc ++ [e.hash_format]) []

/-- os.path.join for the canonical paths of the model. -/
def pathJoin (a : Path) (b : String) : Path := a ++ "/" ++ b

/-- One observation accumulated by a generation session: either a file
observation (path, size, mtime, format, value) or a directory observation
(path, format, value). -/
inductive Observation where
  | file (path : Path) (size : Nat) (mtime : Nat) (format : HashFormat)
      (value : String)
  | dir (path : Path) (format : HashFormat) (value : String)
deriving DecidableEq, Repr

/-- Whether an observation is a directory-hash observation. -/
def Observation.isDirObs : Observation → Bool
  | .file _ _ _ _ _ => false
  | .dir _ _ _ => true

/-- Modelled from the spec: generator.py (MHLGenerationCreationSession) is not
in the sources.  The session accumulates the observations of the generation
being built, in append order. -/
structure Session where
  observations : List Observation
deriving DecidableEq, Repr

/-- Modelled from the spec: MHLGenerationCreationSession.append_file_hash —
the observation is always retained (so the generation records reality) and the
call returns true iff no prior hash exists in this format for this path or the
prior (original, i.e. earliest) recorded hash matches the new value; it
returns false on mismatch. -/
def sessionAppendFileHash (h : MHLHistory) (s : Session) (path : Path)
    (size mtime : Nat) (fmt : HashFormat) (value : String) : Session × Bool :=
  let s' : Session :=
    { observations := s.observations ++ [Observation.file path size mtime fmt value] }
  match findOriginalEntryForFormat h path fmt with
  | none => (s', true)
  | some prior => (s', prior = value)

/-- Result of seal_file_path: the hash in the requested format, the success
flag, and the session extended with the appended observations. -/
structure SealFileResult where
  hashString : String
  success : Bool
  session : Session
deriving DecidableEq, Repr

/-- Embedding of seal_file_path (src/mhl/commands.py lines 254-272): when some
hash format preexists for the path but not the requested one, the file is
additionally hashed and appended in the first preexisting format; the hash in
the requested format is always appended; success is the conjunction of the
append results. -/
def sealFilePath (h : MHLHistory) (fh : HashFormat → Path → String)
    (fsize fmtime : Path → Nat) (session : Session) (filePath : Path)
    (hashFormat : HashFormat) : SealFileResult :=
  let fileSize := fsize filePath
  let fileMod := fmtime filePath
  let existingFormats := findExistingHashFormats h filePath
  let first :=
    match existingFormats with
    | [] => (session, true)
    | f0 :: rest =>
      if hashFormat ∈ f0 :: rest then (session, true)
      else
        sessionAppendFileHash h session filePath fileSize fileMod f0
          (fh f0 filePath)
  let currentFormatHash := fh hashFormat filePath
  let second :=
    sessionAppendFileHash h first.1 filePath fileSize fileMod hashFormat
      currentFormatHash
  { hashString := currentFormatHash
    success := first.2 && second.2
    session := second.1 }

/-- Modelled from the spec: hasher.DirectoryHashContext is not in the sources.
The context keeps the chosen format and the (child_hash_value, child_name)
pairs in append order; the final hash is an abstract function of both, passed
to the engine as a parameter dh. -/
structure DirectoryHashContext where
  format : HashFormat
  items : List (String × String)
deriving DecidableEq, Repr

/-- DirectoryHashContext.append_hash: record one (hash value, child name) pair. -/
def ctxAppend (c : DirectoryHashContext) (value name : String) :
    DirectoryHashContext :=
  { c with items := c.items ++ [(value, name)] }

/-- dict.pop(key) on an association list: the stored value and the remaining
list, or none when the key is absent (in which case Python raises KeyError). -/
def assocPop (m : List (Path × String)) (k : Path) :
    Option (String × List (Path × String)) :=
  match m with
  | [] => none
  | (k', v) :: rest =>
    if k' = k then some (v, rest)
    else
      match assocPop rest k with
      | none => none
      | some (v', rest') => some (v', (k', v) :: rest')

/-- dict assignment m[k] = v on an association list. -/
def assocSet (m : List (Path × String)) (k : Path) (v : String) :
    List (Path × String) :=
  match m with
  | [] => [(k, v)]
  | (k', v') :: rest =>
    if k' = k then (k, v) :: rest else (k', v') :: assocSet rest k v

/-- The history-store and control-flow events a command performs, in order:
session creation, the commit (which persists a new generation through the
History Store), and the raising of the terminal exceptions. -/
inductive Event where
  | sessionCreate
  | commit
  | raiseVerification
  | raiseCompleteness
  | raiseNewFiles
  | raiseNoHistory
deriving DecidableEq, Repr

/-- The aggregate result condition of a command run. -/
inductive Outcome where
  | ok
  | verificationFailed
  | completenessFailed
  | newFilesFound
  | noHistory
deriving DecidableEq, Repr

/-- Modelled from the spec: logger.py exception exit codes are not in the
sources.  The spec pins 0 for success, 12 for verification failure and 15 for
completeness failure, and requires a distinct nonzero code for new-files-found
and the no-history error; 13 and 11 are placeholders for the last two (their
concrete values are not pinned by the sources, only their distinctness). -/
def exitCode : Outcome → Nat
  | .ok => 0
  | .verificationFailed => 12
  | .completenessFailed => 15
  | .newFilesFound => 13
  | .noHistory => 11

/-- A Python-level error aborting a seal run: the KeyError raised by
dir_hash_mappings.pop on an absent key. -/
inductive SealError where
  | keyError (p : Path)
deriving DecidableEq, Repr

/-- The mutable state of the seal traversal loop: the session, the mismatch
counter, the folder-to-directory-hash mapping and the expected-path set
(not_found_paths). -/
structure SealState where
  session : Session
  numFailed : Nat
  dirHashMappings : List (Path × String)
  notFound : List Path
deriving DecidableEq, Repr

/-- Embedding of the per-child body of the seal traversal loop
(src/mhl/commands.py lines 63-75).  A directory child is skipped when no
directory-hash context exists; otherwise its previously finalized hash is
popped from the mapping (KeyError when absent) and appended to the context.
A file child is sealed via seal_file_path, the mismatch counter updated, its
path discarded from not_found_paths, and its hash appended to the context when
one exists. -/
def sealProcessChild (h : MHLHistory) (fh : HashFormat → Path → String)
    (fsize fmtime : Path → Nat) (hashFormat : HashFormat) (folderPath : Path)
    (st : SealState) (ctx : Option DirectoryHashContext)
    (child : String × Bool) :
    Except SealError (SealState × Option DirectoryHashContext) :=
  let filePath := pathJoin folderPath child.1
  if child.2 then
    match ctx with
    | none => Except.ok (st, none)
    | some c =>
      match assocPop st.dirHashMappings filePath with
      | none => Except.error (SealError.keyError filePath)
      | some (hashString, rest) =>
        Except.ok ({ st with dirHashMappings := rest },
          some (ctxAppend c hashString child.1))
  else
    let r := sealFilePath h fh fsize fmtime st.session filePath hashFormat
    let st' : SealState :=
      { st with
        session := r.session
        numFailed := if r.success then st.numFailed else st.numFailed + 1
        notFound := st.notFound.filter (fun q => q ≠ filePath) }
    Except.ok (st', ctx.map (fun c => ctxAppend c r.hashString child.1))

/-- The inner children loop of the seal traversal, threading the loop state
and the optional directory-hash context through sealProcessChild. -/
def sealChildren (h : MHLHistory) (fh : HashFormat → Path → String)
    (fsize fmtime : Path → Nat) (hashFormat : HashFormat) (folderPath : Path) :
    SealState → Option DirectoryHashContext → List (String × Bool) →
    Except SealError (SealState × Option DirectoryHashContext)
  | st, ctx, [] => Except.ok (st, ctx)
  | st, ctx, c :: rest =>
    match sealProcessChild h fh fsize fmtime hashFormat folderPath st ctx c with
    | Except.error e => Except.error e
    | Except.ok (st', ctx') =>
      sealChildren h fh fsize fmtime hashFormat folderPath st' ctx' rest

/-- The outer folder loop of the seal traversal (src/mhl/commands.py lines
58-79): per visited folder a fresh context is created when directory hashes
are enabled; after the children loop the finalized directory hash (the
abstract dh applied to the accumulated items) is stored into the mapping. -/
def sealFolders (h : MHLHistory) (fh : HashFormat → Path → String)
    (dh : HashFormat → List (String × String) → String)
    (fsize fmtime : Path → Nat) (dirHashes : Bool) (hashFormat : HashFormat) :
    SealState → List (Path × List (String × Bool)) →
    Except SealError SealState
  | st, [] => Except.ok st
  | st, (folderPath, children) :: rest =>
    match sealChildren h fh fsize fmtime hashFormat folderPath st
        (if dirHashes then some { format := hashFormat, items := [] } else none)
        children with
    | Except.error e => Except.error e
    | Except.ok (st', ctx') =>
      let st'' : SealState :=
        match ctx' with
        | none => st'
        | some c =>
          { st' with
            dirHashMappings :=
              assocSet st'.dirHashMappings folderPath (dh c.format c.items) }
      sealFolders h fh dh fsize fmtime dirHashes hashFormat st'' rest

/-- User-controlled inputs of one seal run: the traversal output for the root
path, the directory-hashes flag and the requested hash format. -/
structure SealInput where
  walk : List (Path × List (String × Bool))
  dirHashes : Bool
  hashFormat : HashFormat
deriving DecidableEq, Repr

/-- The result of a completed seal run. -/
structure SealResult where
  session : Session
  numFailed : Nat
  notFound : List Path
  events : List Event
  outcome : Outcome
deriving DecidableEq, Repr

/-- The trailing raise events of a seal run (src/mhl/commands.py lines 83-86):
the verification failure is raised first when any verification failed,
otherwise the completeness failure when expected paths are still missing. -/
def sealRaises (numFailed : Nat) (notFound : List Path) : List Event :=
  if numFailed > 0 then [Event.raiseVerification]
  else if notFound.isEmpty then [] else [Event.raiseCompleteness]

/-- The outcome of a completed seal run, mirroring the same raise order. -/
def sealOutcome (numFailed : Nat) (notFound : List Path) : Outcome :=
  if numFailed > 0 then Outcome.verificationFailed
  else if notFound.isEmpty then Outcome.ok else Outcome.completenessFailed

/-- Embedding of the seal command (src/mhl/commands.py lines 34-86): collect
the expected paths, start a session, run the traversal loop, commit the
session, then raise the verification failure and afterwards check for missing
files.  A KeyError aborting the traversal is surfaced as an error. -/
def sealRun (h : MHLHistory) (fh : HashFormat → Path → String)
    (dh : HashFormat → List (String × String) → String)
    (fsize fmtime : Path → Nat) (inp : SealInput) :
    Except SealError SealResult :=
  let st0 : SealState :=
    { session := { observations := [] }
      numFailed := 0
      dirHashMappings := []
      notFound := setOfFilePaths h }
  match sealFolders h fh dh fsize fmtime inp.dirHashes inp.hashFormat st0 inp.walk with
  | Except.error e => Except.error e
  | Except.ok st =>
    Except.ok
      { session := st.session
        numFailed := st.numFailed
        notFound := st.notFound
        events := Event.sessionCreate :: Event.commit ::
          sealRaises st.numFailed st.notFound
        outcome := sealOutcome st.numFailed st.notFound }

/-- The report of the check command for one visited file (src/mhl/commands.py
lines 122-142): a new file when no original hash entry exists in the history;
otherwise the file is re-hashed in the format of the original entry and
reported ok exactly when the recomputed value equals the recorded one. -/
inductive FileReport where
  | ok
  | mismatch
  | newFile
deriving DecidableEq, Repr

/-- Embedding of the per-file verification of check: look up the original
(earliest) hash entry, re-hash the file in that entry's format, and compare. -/
def checkFileReport (h : MHLHistory) (fh : HashFormat → Path → String)
    (filePath : Path) : FileReport :=
  match findOriginalHashEntry h filePath with
  | none => FileReport.newFile
  | some entry =>
    if entry.hash_string = fh entry.hash_format filePath then FileReport.ok
    else FileReport.mismatch

/-- The mutable state of the check traversal loop. -/
structure CheckState where
  numFailed : Nat
  numNew : Nat
  notFound : List Path
deriving DecidableEq, Repr

/-- Embedding of the per-child body of the check traversal loop
(src/mhl/commands.py lines 117-144): directory children are skipped; a new
file only bumps the new-files counter (its path is not discarded); otherwise
the path is discarded from not_found_paths and a mismatch bumps the failure
counter. -/
def checkChild (h : MHLHistory) (fh : HashFormat → Path → String)
    (folderPath : Path) (st : CheckState) (child : String × Bool) : CheckState :=
  if child.2 then st
  else
    match checkFileReport h fh (pathJoin folderPath child.1) with
    | FileReport.newFile => { st with numNew := st.numNew + 1 }
    | FileReport.ok =>
      { st with notFound :=
          st.notFound.filter (fun q => q ≠ pathJoin folderPath child.1) }
    | FileReport.mismatch =>
      { st with
        numFailed := st.numFailed + 1
        notFound :=
          st.notFound.filter (fun q => q ≠ pathJoin folderPath child.1) }

/-- The inner children loop of the check traversal. -/
def checkChildren (h : MHLHistory) (fh : HashFormat → Path → String)
    (folderPath : Path) : CheckState → List (String × Bool) → CheckState
  | st, [] => st
  | st, c :: rest => checkChildren h fh folderPath (checkChild h fh folderPath st c) rest

/-- The outer folder loop of the check traversal. -/
def checkFolders (h : MHLHistory) (fh : HashFormat → Path → String) :
    CheckState → List (Path × List (String × Bool)) → CheckState
  | st, [] => st
  | st, (folderPath, children) :: rest =>
    checkFolders h fh (checkChildren h fh folderPath st children) rest

/-- The result of a check run. -/
structure CheckResult where
  numFailed : Nat
  numNew : Nat
  notFound : List Path
  events : List Event
  outcome : Outcome
deriving DecidableEq, Repr

/-- The raise events of a completed check run (src/mhl/commands.py lines
146-152): verification failure first, then the completeness check, and only
afterwards the new-files-found error. -/
def checkRaises (numFailed numNew : Nat) (notFound : List Path) : List Event :=
  if numFailed > 0 then [Event.raiseVerification]
  else if notFound.isEmpty then
    (if numNew > 0 then [Event.raiseNewFiles] else [])
  else [Event.raiseCompleteness]

/-- The outcome of a completed check run, mirroring the same raise order. -/
def checkOutcome (numFailed numNew : Nat) (notFound : List Path) : Outcome :=
  if numFailed > 0 then Outcome.verificationFailed
  else if notFound.isEmpty then
    (if numNew > 0 then Outcome.newFilesFound else Outcome.ok)
  else Outcome.completenessFailed

/-- Embedding of the check command (src/mhl/commands.py lines 92-152): raise
the no-history error when the history has no generations; otherwise collect
the expected paths, verify every visited file, and raise, in this order, the
verification failure, the completeness failure and the new-files-found error.
The command creates no session and performs no commit: its events contain
raises only. -/
def checkRun (h : MHLHistory) (fh : HashFormat → Path → String)
    (walk : List (Path × List (String × Bool))) : CheckResult :=
  if h.generations.isEmpty then
    { numFailed := 0
      numNew := 0
      notFound := []
      events := [Event.raiseNoHistory]
      outcome := Outcome.noHistory }
  else
    let st0 : CheckState :=
      { numFailed := 0, numNew := 0, notFound := setOfFilePaths h }
    let st := checkFolders h fh st0 walk
    { numFailed := st.numFailed
      numNew := st.numNew
      notFound := st.notFound
      events := checkRaises st.numFailed st.numNew st.notFound
      outcome := checkOutcome st.numFailed st.numNew st.notFound }

/-- One PATHS argument of the record command, tagged by what os.path.isdir
finds on disk: a plain file path, or a folder together with the traversal
output rooted at it. -/
inductive RecordPathInput where
  | file (path : Path)
  | dir (walk : List (Path × List (String × Bool)))
deriving DecidableEq, Repr

/-- The error of a record run invoked with an empty PATHS list
(click.BadParameter, raised before any session exists). -/
inductive RecordError where
  | badParameter
deriving DecidableEq, Repr

/-- The result of a completed record run. -/
structure RecordResult where
  session : Session
  numFailed : Nat
  events : List Event
  outcome : Outcome
deriving DecidableEq, Repr

/-- The folder loop of record for one folder argument (src/mhl/commands.py
lines 195-202): every file child is sealed via seal_file_path, directory
children are skipped; no expected-path set is maintained. -/
def recordFolderFiles (h : MHLHistory) (fh : HashFormat → Path → String)
    (fsize fmtime : Path → Nat) (hashFormat : HashFormat) :
    Session × Nat → List (Path × List (String × Bool)) → Session × Nat
  | acc, [] => acc
  | acc, (folderPath, children) :: rest =>
    let acc' := children.foldl
      (fun a c =>
        if c.2 then a
        else
          let r := sealFilePath h fh fsize fmtime a.1
            (pathJoin folderPath c.1) hashFormat
          (r.session, if r.success then a.2 else a.2 + 1))
      acc
    recordFolderFiles h fh fsize fmtime hashFormat acc' rest

/-- The main loop of record over the PATHS arguments (src/mhl/commands.py
lines 191-206). -/
def recordPaths (h : MHLHistory) (fh : HashFormat → Path → String)
    (fsize fmtime : Path → Nat) (hashFormat : HashFormat) :
    Session × Nat → List RecordPathInput → Session × Nat
  | acc, [] => acc
  | acc, RecordPathInput.file p :: rest =>
    let r := sealFilePath h fh fsize fmtime acc.1 p hashFormat
    recordPaths h fh fsize fmtime hashFormat
      (r.session, if r.success then acc.2 else acc.2 + 1) rest
  | acc, RecordPathInput.dir walk :: rest =>
    recordPaths h fh fsize fmtime hashFormat
      (recordFolderFiles h fh fsize fmtime hashFormat acc walk) rest

/-- Embedding of the record command (src/mhl/commands.py lines 161-211): an
empty PATHS list is a BadParameter error raised before any session exists;
otherwise every given path is sealed, the session is committed, and the
verification failure is raised when any verification failed.  No completeness
check exists in record: missing expected paths are ignored. -/
def recordRun (h : MHLHistory) (fh : HashFormat → Path → String)
    (fsize fmtime : Path → Nat) (hashFormat : HashFormat)
    (paths : List RecordPathInput) : Except RecordError RecordResult :=
  if paths.isEmpty then Except.error RecordError.badParameter
  else
    let acc := recordPaths h fh fsize fmtime hashFormat
      ({ observations := [] }, 0) paths
    Except.ok
      { session := acc.1
        numFailed := acc.2
        events := Event.sessionCreate :: Event.commit ::
          (if acc.2 > 0 then [Event.raiseVerification] else [])
        outcome := if acc.2 > 0 then Outcome.verificationFailed else Outcome.ok }

/-- Whether a path occurs as a file child anywhere in a traversal output. -/
def occursAsFileChild (walk : List (Path × List (String × Bool))) (p : Path) :
    Bool :=
  walk.any (fun f => f.2.any (fun c => !c.2 && decide (pathJoin f.1 c.1 = p)))

/-- Whether an Except value of a seal run is a completed run. -/
def isOkSeal : Except SealError SealResult → Bool
  | Except.ok _ => true
  | Except.error _ => false

/-- The result of a completed seal run (dummy default on aborted runs). -/
def sealValue : Except SealError SealResult → SealResult
  | Except.ok r => r
  | Except.error _ =>
    { session := { observations := [] }, numFailed := 0, notFound := []
      events := [], outcome := Outcome.ok }

/-- Whether an Except value of a record run is a completed run. -/
def isOkRecord : Except RecordError RecordResult → Bool
  | Except.ok _ => true
  | Except.error _ => false

/-- The result of a completed record run (dummy default on aborted runs). -/
def recordValue : Except RecordError RecordResult → RecordResult
  | Except.ok r => r
  | Except.error _ =>
    { session := { observations := [] }, numFailed := 0, events := []
      outcome := Outcome.ok }

/-- Concrete history for the C5 witness: one generation holding a single md5
entry for the file /f. -/
def histC5 : MHLHistory :=
  { generations :=
      [[{ path := "/f", is_directory := false
          hash_entries := [{ hash_format := "md5", hash_string := "abc" }] }]] }

/-- Concrete hash function for the C5 witness. -/
def fhC5 : HashFormat → Path → String := fun fmt p => fmt ++ "-of-" ++ p

/-- Concrete history for the C7 witness: the earliest entry for /f is an md5
entry recorded in the first generation; a later generation adds another. -/
def histC7 : MHLHistory :=
  { generations :=
      [[{ path := "/f", is_directory := false
          hash_entries := [{ hash_format := "md5", hash_string := "good" }] }],
       [{ path := "/f", is_directory := false
          hash_entries := [{ hash_format := "xxh64", hash_string := "zzz" }] }]] }

/-- Concrete seal input for the C2 witness: the history expects a file that is
absent from the walked tree, so the completed run raises after committing. -/
def histC2 : MHLHistory :=
  { generations :=
      [[{ path := "/root/gone.txt", is_directory := false
          hash_entries := [{ hash_format := "xxh64", hash_string := "aa" }] }]] }

/-- Concrete S5-like state: the history records original hashes for the file
A2.txt and for B1.txt; on disk A2.txt is altered (its recomputed hash differs
from the original) and B1.txt has been renamed away (its old path is absent
from the traversal). -/
def histC3 : MHLHistory :=
  { generations :=
      [[{ path := "/root/A/A2.txt", is_directory := false
          hash_entries := [{ hash_format := "xxh64", hash_string := "origA2" }] },
        { path := "/root/B/B1.txt", is_directory := false
          hash_entries := [{ hash_format := "xxh64", hash_string := "origB1" }] }]] }

/-- Concrete hash snapshot for the S5-like state: A2.txt hashes to an altered
value, everything else to a fixed one. -/
def fhC3 : HashFormat → Path → String :=
  fun _ p => if p = "/root/A/A2.txt" then "altered" else "other"

/-- The S5-like seal input: the traversal finds only A2.txt. -/
def inpC3 : SealInput :=
  { walk := [("/root/A", [("A2.txt", false)])]
    dirHashes := false
    hashFormat := "xxh64" }

/-- Concrete check state for C6: the history records one file whose hash now
mismatches, and the traversal additionally finds a file with no original hash
entry (a new file). -/
def histC6 : MHLHistory :=
  { generations :=
      [[{ path := "/root/old.txt", is_directory := false
          hash_entries := [{ hash_format := "xxh64", hash_string := "good" }] }]] }

/-- Hash snapshot for the C6 counterexample: old.txt now hashes to a value
different from its recorded one. -/
def fhC6 : HashFormat → Path → String :=
  fun _ p => if p = "/root/old.txt" then "bad" else "x"

/-- Traversal output for the C6 runs: old.txt plus the new file new.txt. -/
def walkC6 : List (Path × List (String × Bool)) :=
  [("/root", [("new.txt", false), ("old.txt", false)])]

/-- Concrete check state for the C6 witness: one matching recorded file and
one new file, so the new-files-found condition is the sole failure. -/
def fhC6b : HashFormat → Path → String :=
  fun _ p => if p = "/root/old.txt" then "good" else "x"

/-- Concrete seal input for the C4 counterexample: with directory hashes
enabled, the traversal yields a directory child (as a nested history root
would be yielded) that was never visited as a folder, so its finalized hash is
absent from the mapping. -/
def inpC4 : SealInput :=
  { walk := [("/root", [("nested", true)])]
    dirHashes := true
    hashFormat := "xxh64" }

/-- Concrete S2-like seal input for the C1 witness: directory hashes enabled
over a small tree. -/
def inpC1 : SealInput :=
  { walk := [("/root/A", [("A1.txt", false)]),
             ("/root", [("A", true), ("Stuff.txt", false)])]
    dirHashes := true
    hashFormat := "xxh64" }

/-- Concrete history and inputs for the C10 witness: the history expects the
directory path /root/D, which the traversal yields only as a directory. -/
def histC10 : MHLHistory :=
  { generations :=
      [[{ path := "/root/D", is_directory := true, hash_entries := [] }]] }

/-- The C10 witness traversal: /root/D is visited and appears as a directory
child of /root, never as a file child. -/
def inpC10 : SealInput :=
  { walk := [("/root/D", []), ("/root", [("D", true)])]
    dirHashes := false
    hashFormat := "xxh64" }

theorem sessionAppendFileHash_observations (h : MHLHistory) (s : Session)
    (p : Path) (sz mt : Nat) (fmt : HashFormat) (v : String) :
    (sessionAppendFileHash h s p sz mt fmt v).1.observations =
      s.observations ++ [Observation.file p sz mt fmt v] := by
  unfold sessionAppendFileHash
  cases hfind : findOriginalEntryForFormat h p fmt <;> simp [hfind]

/-- C5: for every file sealed by seal_file_path where the preexisting formats
for the path are non-empty and do not contain the requested format, exactly
two observations are appended to the session — one in the first preexisting
format with the file's hash computed in that format, then one in the requested
format — and the call reports success iff both appends succeed. -/
theorem seal_file_path_cross_format_two_appends
    (h : MHLHistory) (fh : HashFormat → Path → String)
    (fsize fmtime : Path → Nat) (session : Session) (filePath : Path)
    (hashFormat : HashFormat) (f0 : HashFormat) (rest : List HashFormat)
    (hex : findExistingHashFormats h filePath = f0 :: rest)
    (hnot : hashFormat ∉ f0 :: rest) :
    (sealFilePath h fh fsize fmtime session filePath hashFormat).session.observations =
      session.observations ++
        [Observation.file filePath (fsize filePath) (fmtime filePath) f0
          (fh f0 filePath),
         Observation.file filePath (fsize filePath) (fmtime filePath)
          hashFormat (fh hashFormat filePath)] ∧
    ((sealFilePath h fh fsize fmtime session filePath hashFormat).success = true ↔
      (sessionAppendFileHash h session filePath (fsize filePath)
        (fmtime filePath) f0 (fh f0 filePath)).2 = true ∧
      (sessionAppendFileHash h
        (sessionAppendFileHash h session filePath (fsize filePath)
          (fmtime filePath) f0 (fh f0 filePath)).1
        filePath (fsize filePath) (fmtime filePath) hashFormat
        (fh hashFormat filePath)).2 = true) := by
  simp only [sealFilePath, hex]
  rw [if_neg hnot]
  constructor
  · rw [sessionAppendFileHash_observations, sessionAppendFileHash_observations]
    simp [List.append_assoc]
  · exact iff_of_eq (Bool.and_eq_true _ _)

theorem seal_file_path_cross_format_two_appends_witness :
    findExistingHashFormats histC5 "/f" = ["md5"] ∧
    ("xxh64" : HashFormat) ∉ (["md5"] : List HashFormat) ∧
    ((sealFilePath histC5 fhC5 (fun _ => 1) (fun _ => 2)
        { observations := [] } "/f" "xxh64").session.observations =
      ({ observations := [] } : Session).observations ++
        [Observation.file "/f" 1 2 "md5" (fhC5 "md5" "/f"),
         Observation.file "/f" 1 2 "xxh64" (fhC5 "xxh64" "/f")] ∧
    ((sealFilePath histC5 fhC5 (fun _ => 1) (fun _ => 2)
        { observations := [] } "/f" "xxh64").success = true ↔
      (sessionAppendFileHash histC5 { observations := [] } "/f" 1 2 "md5"
        (fhC5 "md5" "/f")).2 = true ∧
      (sessionAppendFileHash histC5
        (sessionAppendFileHash histC5 { observations := [] } "/f" 1 2 "md5"
          (fhC5 "md5" "/f")).1
        "/f" 1 2 "xxh64" (fhC5 "xxh64" "/f")).2 = true)) :=
  ⟨by decide, by decide,
    seal_file_path_cross_format_two_appends histC5 fhC5 (fun _ => 1)
      (fun _ => 2) { observations := [] } "/f" "xxh64" "md5" []
      (by decide) (by decide)⟩

/-- C7: for every file visited by check that has an original hash entry in the
history, check recomputes the file's hash in the format of that original
(earliest) entry and reports a mismatch exactly when the recomputed value
differs from the original entry's value. -/
theorem check_verifies_in_original_format
    (h : MHLHistory) (fh : HashFormat → Path → String) (filePath : Path)
    (entry : HashEntry)
    (horig : findOriginalHashEntry h filePath = some entry) :
    (checkFileReport h fh filePath = FileReport.mismatch ↔
      fh entry.hash_format filePath ≠ entry.hash_string) ∧
    (checkFileReport h fh filePath = FileReport.ok ↔
      fh entry.hash_format filePath = entry.hash_string) := by
  simp only [checkFileReport, horig]
  by_cases heq : entry.hash_string = fh entry.hash_format filePath
  · simp [heq]
  · simp [heq]
    intro hx
    exact heq hx.symm

theorem check_verifies_in_original_format_witness :
    findOriginalHashEntry histC7 "/f" =
      some { hash_format := "md5", hash_string := "good" } ∧
    ((checkFileReport histC7 (fun fmt p => fmt ++ "-of-" ++ p) "/f" =
        FileReport.mismatch ↔
      (fun (fmt : HashFormat) (p : Path) => fmt ++ "-of-" ++ p) "md5" "/f" ≠
        ({ hash_format := "md5", hash_string := "good" } : HashEntry).hash_string) ∧
    (checkFileReport histC7 (fun fmt p => fmt ++ "-of-" ++ p) "/f" =
        FileReport.ok ↔
      (fun (fmt : HashFormat) (p : Path) => fmt ++ "-of-" ++ p) "md5" "/f" =
        ({ hash_format := "md5", hash_string := "good" } : HashEntry).hash_string)) :=
  ⟨by decide,
    check_verifies_in_original_format histC7 (fun fmt p => fmt ++ "-of-" ++ p)
      "/f" { hash_format := "md5", hash_string := "good" } (by decide)⟩

theorem sealRaises_no_commit (n : Nat) (nf : List Path) :
    Event.commit ∉ sealRaises n nf := by
  unfold sealRaises
  split
  · simp
  · split <;> simp

/-- C2: for every run of seal that completes its traversal, the session is
committed (the commit event follows session creation immediately and precedes
every raise event) before any verification-failure or completeness-failure
exception is raised; in particular a run with a hash mismatch or a missing
expected path still commits its generation. -/
theorem seal_commits_before_raising (h : MHLHistory)
    (fh : HashFormat → Path → String)
    (dh : HashFormat → List (String × String) → String)
    (fsize fmtime : Path → Nat) (inp : SealInput) (r : SealResult)
    (hrun : sealRun h fh dh fsize fmtime inp = Except.ok r) :
    (∃ tl, r.events = Event.sessionCreate :: Event.commit :: tl ∧
      Event.commit ∉ tl) ∧
    (0 < r.numFailed ∨ r.notFound ≠ [] → Event.commit ∈ r.events) := by
  simp only [sealRun] at hrun
  split at hrun
  · exact absurd hrun (by simp)
  · rename_i st heq
    rw [Except.ok.injEq] at hrun
    subst hrun
    refine ⟨⟨sealRaises st.numFailed st.notFound, rfl,
      sealRaises_no_commit _ _⟩, ?_⟩
    intro _
    simp

theorem seal_commits_before_raising_witness :
    sealRun histC2 (fun fmt p => fmt ++ ":" ++ p) (fun _ l => toString l.length)
        (fun _ => 0) (fun _ => 0)
        { walk := [("/root", [])], dirHashes := false, hashFormat := "xxh64" } =
      Except.ok (sealValue (sealRun histC2 (fun fmt p => fmt ++ ":" ++ p)
        (fun _ l => toString l.length) (fun _ => 0) (fun _ => 0)
        { walk := [("/root", [])], dirHashes := false, hashFormat := "xxh64" })) ∧
    ((∃ tl, (sealValue (sealRun histC2 (fun fmt p => fmt ++ ":" ++ p)
        (fun _ l => toString l.length) (fun _ => 0) (fun _ => 0)
        { walk := [("/root", [])], dirHashes := false, hashFormat := "xxh64" })).events =
        Event.sessionCreate :: Event.commit :: tl ∧ Event.commit ∉ tl) ∧
      (0 < (sealValue (sealRun histC2 (fun fmt p => fmt ++ ":" ++ p)
        (fun _ l => toString l.length) (fun _ => 0) (fun _ => 0)
        { walk := [("/root", [])], dirHashes := false, hashFormat := "xxh64" })).numFailed ∨
        (sealValue (sealRun histC2 (fun fmt p => fmt ++ ":" ++ p)
        (fun _ l => toString l.length) (fun _ => 0) (fun _ => 0)
        { walk := [("/root", [])], dirHashes := false, hashFormat := "xxh64" })).notFound ≠ [] →
        Event.commit ∈ (sealValue (sealRun histC2 (fun fmt p => fmt ++ ":" ++ p)
        (fun _ l => toString l.length) (fun _ => 0) (fun _ => 0)
        { walk := [("/root", [])], dirHashes := false, hashFormat := "xxh64" })).events)) :=
  ⟨rfl,
    seal_commits_before_raising histC2 (fun fmt p => fmt ++ ":" ++ p)
      (fun _ l => toString l.length) (fun _ => 0) (fun _ => 0)
      { walk := [("/root", [])], dirHashes := false, hashFormat := "xxh64" }
      (sealValue (sealRun histC2 (fun fmt p => fmt ++ ":" ++ p)
        (fun _ l => toString l.length) (fun _ => 0) (fun _ => 0)
        { walk := [("/root", [])], dirHashes := false, hashFormat := "xxh64" }))
      rfl⟩

theorem checkRaises_no_write (n m : Nat) (nf : List Path) :
    Event.sessionCreate ∉ checkRaises n m nf ∧
    Event.commit ∉ checkRaises n m nf := by
  unfold checkRaises
  split
  · simp
  · split
    · split <;> simp
    · simp

/-- C9: every run of check leaves the history unchanged — check performs no
session creation and no commit (hence no persist through the History Store),
whatever the outcome of the run (verification failure, completeness failure,
new-files-found or the no-history error). -/
theorem check_never_writes (h : MHLHistory) (fh : HashFormat → Path → String)
    (walk : List (Path × List (String × Bool))) :
    Event.sessionCreate ∉ (checkRun h fh walk).events ∧
    Event.commit ∉ (checkRun h fh walk).events := by
  unfold checkRun
  split
  · exact ⟨by decide, by decide⟩
  · exact ⟨(checkRaises_no_write _ _ _).1, (checkRaises_no_write _ _ _).2⟩

/-- C8: for every run of record with a non-empty list of inputs, the run
completes, the session is committed, the run exits 0 exactly when all file
verifications succeed and with the verification-failure code 12 otherwise, and
no completeness failure is ever raised. -/
theorem record_commits_and_never_completeness (h : MHLHistory)
    (fh : HashFormat → Path → String) (fsize fmtime : Path → Nat)
    (hashFormat : HashFormat) (paths : List RecordPathInput)
    (hne : paths ≠ []) :
    isOkRecord (recordRun h fh fsize fmtime hashFormat paths) = true ∧
    (∃ tl, (recordValue (recordRun h fh fsize fmtime hashFormat paths)).events =
      Event.sessionCreate :: Event.commit :: tl) ∧
    ((recordValue (recordRun h fh fsize fmtime hashFormat paths)).outcome =
        Outcome.ok ↔
      (recordValue (recordRun h fh fsize fmtime hashFormat paths)).numFailed = 0) ∧
    (0 < (recordValue (recordRun h fh fsize fmtime hashFormat paths)).numFailed →
      (recordValue (recordRun h fh fsize fmtime hashFormat paths)).outcome =
        Outcome.verificationFailed) ∧
    (recordValue (recordRun h fh fsize fmtime hashFormat paths)).outcome ≠
      Outcome.completenessFailed ∧
    Event.raiseCompleteness ∉
      (recordValue (recordRun h fh fsize fmtime hashFormat paths)).events ∧
    (exitCode (recordValue (recordRun h fh fsize fmtime hashFormat paths)).outcome = 0 ∨
      exitCode (recordValue (recordRun h fh fsize fmtime hashFormat paths)).outcome = 12) := by
  have hif : paths.isEmpty = false := by
    cases paths with
    | nil => exact absurd rfl hne
    | cons a l => rfl
  unfold recordRun
  rw [hif]
  by_cases hz : 0 <
    (recordPaths h fh fsize fmtime hashFormat ({ observations := [] }, 0) paths).2
  · simp [isOkRecord, recordValue, hz, exitCode]
    exact Nat.pos_iff_ne_zero.mp hz
  · simp [isOkRecord, recordValue, hz, exitCode]
    exact Nat.eq_zero_of_not_pos hz

theorem record_commits_and_never_completeness_witness :
    ([RecordPathInput.file "/f"] : List RecordPathInput) ≠ [] ∧
    (isOkRecord (recordRun histC5 fhC5 (fun _ => 1) (fun _ => 2) "md5"
        [RecordPathInput.file "/f"]) = true ∧
      (∃ tl, (recordValue (recordRun histC5 fhC5 (fun _ => 1) (fun _ => 2) "md5"
        [RecordPathInput.file "/f"])).events =
        Event.sessionCreate :: Event.commit :: tl) ∧
      ((recordValue (recordRun histC5 fhC5 (fun _ => 1) (fun _ => 2) "md5"
          [RecordPathInput.file "/f"])).outcome = Outcome.ok ↔
        (recordValue (recordRun histC5 fhC5 (fun _ => 1) (fun _ => 2) "md5"
          [RecordPathInput.file "/f"])).numFailed = 0) ∧
      (0 < (recordValue (recordRun histC5 fhC5 (fun _ => 1) (fun _ => 2) "md5"
          [RecordPathInput.file "/f"])).numFailed →
        (recordValue (recordRun histC5 fhC5 (fun _ => 1) (fun _ => 2) "md5"
          [RecordPathInput.file "/f"])).outcome = Outcome.verificationFailed) ∧
      (recordValue (recordRun histC5 fhC5 (fun _ => 1) (fun _ => 2) "md5"
        [RecordPathInput.file "/f"])).outcome ≠ Outcome.completenessFailed ∧
      Event.raiseCompleteness ∉
        (recordValue (recordRun histC5 fhC5 (fun _ => 1) (fun _ => 2) "md5"
          [RecordPathInput.file "/f"])).events ∧
      (exitCode (recordValue (recordRun histC5 fhC5 (fun _ => 1) (fun _ => 2) "md5"
          [RecordPathInput.file "/f"])).outcome = 0 ∨
        exitCode (recordValue (recordRun histC5 fhC5 (fun _ => 1) (fun _ => 2) "md5"
          [RecordPathInput.file "/f"])).outcome = 12)) :=
  ⟨by decide,
    record_commits_and_never_completeness histC5 fhC5 (fun _ => 1) (fun _ => 2)
      "md5" [RecordPathInput.file "/f"] (by decide)⟩

/-- C3 (code evaluated at the failing input): in the S5-like run — one file
still mismatching its original hash and one expected path missing from the
filesystem — the seal command raises the verification failure (exit 12) before
the completeness check is ever reached, so the run does not terminate with the
completeness failure (exit 15) listing the missing path, contrary to the
claim, the spec's scenario S5 and the repository's own test. -/
theorem seal_s5_raises_verification_before_completeness :
    isOkSeal (sealRun histC3 fhC3 (fun _ _ => "") (fun _ => 0) (fun _ => 0)
      inpC3) = true ∧
    0 < (sealValue (sealRun histC3 fhC3 (fun _ _ => "") (fun _ => 0)
      (fun _ => 0) inpC3)).numFailed ∧
    (sealValue (sealRun histC3 fhC3 (fun _ _ => "") (fun _ => 0) (fun _ => 0)
      inpC3)).notFound = ["/root/B/B1.txt"] ∧
    (sealValue (sealRun histC3 fhC3 (fun _ _ => "") (fun _ => 0) (fun _ => 0)
      inpC3)).outcome = Outcome.verificationFailed ∧
    exitCode (sealValue (sealRun histC3 fhC3 (fun _ _ => "") (fun _ => 0)
      (fun _ => 0) inpC3)).outcome = 12 ∧
    (sealValue (sealRun histC3 fhC3 (fun _ _ => "") (fun _ => 0) (fun _ => 0)
      inpC3)).outcome ≠ Outcome.completenessFailed ∧
    Event.raiseCompleteness ∉ (sealValue (sealRun histC3 fhC3 (fun _ _ => "")
      (fun _ => 0) (fun _ => 0) inpC3)).events := by
  decide

/-- C6 counterexample: a check run that finds a new file and also a hash
mismatch does not fail with the new-files-found condition — the verification
failure is raised instead, contrary to the claim. -/
theorem check_new_files_masked_by_verification_failure :
    0 < (checkRun histC6 fhC6 walkC6).numNew ∧
    0 < (checkRun histC6 fhC6 walkC6).numFailed ∧
    (checkRun histC6 fhC6 walkC6).outcome = Outcome.verificationFailed ∧
    (checkRun histC6 fhC6 walkC6).outcome ≠ Outcome.newFilesFound ∧
    Event.raiseNewFiles ∉ (checkRun histC6 fhC6 walkC6).events := by
  decide

/-- C6 as amended: a check run that finds at least one new file fails with the
new-files-found condition (whose exit code is nonzero and distinct from the
verification-failure and completeness-failure codes) when no verification
failure and no completeness failure occurred; otherwise those conditions take
precedence. -/
theorem check_new_files_raised_when_sole_condition (h : MHLHistory)
    (fh : HashFormat → Path → String)
    (walk : List (Path × List (String × Bool)))
    (hnew : 0 < (checkRun h fh walk).numNew)
    (hver : (checkRun h fh walk).numFailed = 0)
    (hmiss : (checkRun h fh walk).notFound = []) :
    (checkRun h fh walk).outcome = Outcome.newFilesFound ∧
    exitCode (checkRun h fh walk).outcome ≠ 0 ∧
    exitCode (checkRun h fh walk).outcome ≠ 12 ∧
    exitCode (checkRun h fh walk).outcome ≠ 15 := by
  by_cases hg : h.generations.isEmpty = true
  · simp [checkRun, hg] at hnew
  · simp only [checkRun, hg, Bool.false_eq_true, if_false] at hnew hver hmiss ⊢
    unfold checkOutcome
    rw [hver, hmiss]
    simp [hnew, exitCode]

theorem check_new_files_raised_when_sole_condition_witness :
    0 < (checkRun histC6 fhC6b walkC6).numNew ∧
    (checkRun histC6 fhC6b walkC6).numFailed = 0 ∧
    (checkRun histC6 fhC6b walkC6).notFound = [] ∧
    ((checkRun histC6 fhC6b walkC6).outcome = Outcome.newFilesFound ∧
      exitCode (checkRun histC6 fhC6b walkC6).outcome ≠ 0 ∧
      exitCode (checkRun histC6 fhC6b walkC6).outcome ≠ 12 ∧
      exitCode (checkRun histC6 fhC6b walkC6).outcome ≠ 15) :=
  ⟨by decide, by decide, by decide,
    check_new_files_raised_when_sole_condition histC6 fhC6b walkC6
      (by decide) (by decide) (by decide)⟩

/-- C4 counterexample: the seal engine does not skip a directory child whose
finalized hash is absent from the mapping — dir_hash_mappings.pop raises a
KeyError and the run aborts. -/
theorem seal_missing_dir_hash_aborts :
    sealRun { generations := [] } (fun fmt p => fmt ++ ":" ++ p)
        (fun _ _ => "") (fun _ => 0) (fun _ => 0) inpC4 =
      Except.error (SealError.keyError "/root/nested") ∧
    isOkSeal (sealRun { generations := [] } (fun fmt p => fmt ++ ":" ++ p)
      (fun _ _ => "") (fun _ => 0) (fun _ => 0) inpC4) = false :=
  ⟨rfl, by decide⟩

/-- C4 as amended: during a seal with directory hashes enabled, a directory
child whose finalized hash is absent from the path-to-hash mapping makes the
engine raise a KeyError for that child's path (aborting the run) rather than
skip it; a directory child is skipped without error only when directory hashes
are disabled (no context exists). -/
theorem seal_missing_dir_hash_raises_key_error (h : MHLHistory)
    (fh : HashFormat → Path → String) (fsize fmtime : Path → Nat)
    (hashFormat : HashFormat) (folderPath : Path) (st : SealState)
    (ctx : DirectoryHashContext) (name : String)
    (hpop : assocPop st.dirHashMappings (pathJoin folderPath name) = none) :
    sealProcessChild h fh fsize fmtime hashFormat folderPath st (some ctx)
        (name, true) =
      Except.error (SealError.keyError (pathJoin folderPath name)) ∧
    sealProcessChild h fh fsize fmtime hashFormat folderPath st none
      (name, true) = Except.ok (st, none) := by
  unfold sealProcessChild
  simp [hpop]

theorem seal_missing_dir_hash_raises_key_error_witness :
    assocPop ([] : List (Path × String)) (pathJoin "/root" "nested") = none ∧
    (sealProcessChild { generations := [] } (fun fmt p => fmt ++ ":" ++ p)
        (fun _ => 0) (fun _ => 0) "xxh64" "/root"
        { session := { observations := [] }, numFailed := 0
          dirHashMappings := [], notFound := [] }
        (some { format := "xxh64", items := [] }) ("nested", true) =
      Except.error (SealError.keyError (pathJoin "/root" "nested")) ∧
    sealProcessChild { generations := [] } (fun fmt p => fmt ++ ":" ++ p)
        (fun _ => 0) (fun _ => 0) "xxh64" "/root"
        { session := { observations := [] }, numFailed := 0
          dirHashMappings := [], notFound := [] }
        none ("nested", true) =
      Except.ok
        ({ session := { observations := [] }, numFailed := 0,
           dirHashMappings := [], notFound := [] },
         none)) :=
  ⟨by decide,
    seal_missing_dir_hash_raises_key_error { generations := [] }
      (fun fmt p => fmt ++ ":" ++ p) (fun _ => 0) (fun _ => 0) "xxh64" "/root"
      { session := { observations := [] }, numFailed := 0
        dirHashMappings := [], notFound := [] }
      { format := "xxh64", items := [] } "nested" (by decide)⟩

/-- Structural characterization of a successful sealProcessChild step: a
directory child leaves session and not_found_paths unchanged; a file child
replaces the session by the seal_file_path result and discards exactly its own
path from not_found_paths. -/
theorem sealProcessChild_ok_cases (h : MHLHistory)
    (fh : HashFormat → Path → String) (fsize fmtime : Path → Nat)
    (hashFormat : HashFormat) (folderPath : Path) (st : SealState)
    (ctx : Option DirectoryHashContext) (child : String × Bool)
    (st' : SealState) (ctx' : Option DirectoryHashContext)
    (hstep : sealProcessChild h fh fsize fmtime hashFormat folderPath st ctx
      child = Except.ok (st', ctx')) :
    (child.2 = true ∧ st'.session = st.session ∧ st'.notFound = st.notFound) ∨
    (child.2 = false ∧
      st'.session = (sealFilePath h fh fsize fmtime st.session
        (pathJoin folderPath child.1) hashFormat).session ∧
      st'.notFound = st.notFound.filter
        (fun q => q ≠ pathJoin folderPath child.1)) := by
  unfold sealProcessChild at hstep
  by_cases hd : child.2 = true
  · left
    refine ⟨hd, ?_⟩
    rw [if_pos hd] at hstep
    cases ctx with
    | none =>
      rw [Except.ok.injEq, Prod.mk.injEq] at hstep
      rw [← hstep.1]
      exact ⟨rfl, rfl⟩
    | some c =>
      cases hpop : assocPop st.dirHashMappings (pathJoin folderPath child.1) with
      | none =>
        rw [hpop] at hstep
        exact absurd hstep (by simp)
      | some pr =>
        rw [hpop] at hstep
        rw [Except.ok.injEq, Prod.mk.injEq] at hstep
        rw [← hstep.1]
        exact ⟨rfl, rfl⟩
  · right
    refine ⟨Bool.eq_false_iff.mpr hd, ?_⟩
    rw [if_neg hd] at hstep
    rw [Except.ok.injEq, Prod.mk.injEq] at hstep
    rw [← hstep.1]
    exact ⟨rfl, rfl⟩

theorem sessionAppendFileHash_no_dir_obs (h : MHLHistory) (s : Session)
    (p : Path) (sz mt : Nat) (fmt : HashFormat) (v : String)
    (hs : ∀ o ∈ s.observations, o.isDirObs = false) :
    ∀ o ∈ (sessionAppendFileHash h s p sz mt fmt v).1.observations,
      o.isDirObs = false := by
  rw [sessionAppendFileHash_observations]
  intro o ho
  rcases List.mem_append.mp ho with h1 | h2
  · exact hs o h1
  · rw [List.mem_singleton] at h2
    subst h2
    rfl

theorem sealFilePath_no_dir_obs (h : MHLHistory)
    (fh : HashFormat → Path → String) (fsize fmtime : Path → Nat)
    (session : Session) (filePath : Path) (hashFormat : HashFormat)
    (hs : ∀ o ∈ session.observations, o.isDirObs = false) :
    ∀ o ∈ (sealFilePath h fh fsize fmtime session filePath
      hashFormat).session.observations, o.isDirObs = false := by
  unfold sealFilePath
  cases hex : findExistingHashFormats h filePath with
  | nil =>
    exact sessionAppendFileHash_no_dir_obs _ _ _ _ _ _ _ hs
  | cons f0 rest =>
    by_cases hmem : hashFormat ∈ f0 :: rest
    · simp only [if_pos hmem]
      exact sessionAppendFileHash_no_dir_obs _ _ _ _ _ _ _ hs
    · simp only [if_neg hmem]
      exact sessionAppendFileHash_no_dir_obs _ _ _ _ _ _ _
        (sessionAppendFileHash_no_dir_obs _ _ _ _ _ _ _ hs)

theorem sealChildren_no_dir_obs (h : MHLHistory)
    (fh : HashFormat → Path → String) (fsize fmtime : Path → Nat)
    (hashFormat : HashFormat) (folderPath : Path) :
    ∀ (children : List (String × Bool)) (st : SealState)
      (ctx : Option DirectoryHashContext) (st' : SealState)
      (ctx' : Option DirectoryHashContext),
      sealChildren h fh fsize fmtime hashFormat folderPath st ctx children =
        Except.ok (st', ctx') →
      (∀ o ∈ st.session.observations, o.isDirObs = false) →
      ∀ o ∈ st'.session.observations, o.isDirObs = false := by
  intro children
  induction children with
  | nil =>
    intro st ctx st' ctx' hstep hs
    unfold sealChildren at hstep
    rw [Except.ok.injEq, Prod.mk.injEq] at hstep
    rw [← hstep.1]
    exact hs
  | cons c rest ih =>
    intro st ctx st' ctx' hstep hs
    unfold sealChildren at hstep
    cases hmid : sealProcessChild h fh fsize fmtime hashFormat folderPath st
        ctx c with
    | error e =>
      rw [hmid] at hstep
      exact absurd hstep (by simp)
    | ok pr =>
      cases pr with
      | mk pst pctx =>
        rw [hmid] at hstep
        rcases sealProcessChild_ok_cases h fh fsize fmtime hashFormat
            folderPath st ctx c pst pctx hmid with
          ⟨_, hsess, _⟩ | ⟨_, hsess, _⟩
        · exact ih pst pctx st' ctx' hstep (hsess ▸ hs)
        · refine ih pst pctx st' ctx' hstep ?_
          rw [hsess]
          exact sealFilePath_no_dir_obs _ _ _ _ _ _ _ hs

theorem sealFolders_no_dir_obs (h : MHLHistory)
    (fh : HashFormat → Path → String)
    (dh : HashFormat → List (String × String) → String)
    (fsize fmtime : Path → Nat) (dirHashes : Bool) (hashFormat : HashFormat) :
    ∀ (walk : List (Path × List (String × Bool))) (st st' : SealState),
      sealFolders h fh dh fsize fmtime dirHashes hashFormat st walk =
        Except.ok st' →
      (∀ o ∈ st.session.observations, o.isDirObs = false) →
      ∀ o ∈ st'.session.observations, o.isDirObs = false := by
  intro walk
  induction walk with
  | nil =>
    intro st st' hstep hs
    unfold sealFolders at hstep
    rw [Except.ok.injEq] at hstep
    rw [← hstep]
    exact hs
  | cons f rest ih =>
    intro st st' hstep hs
    cases f with
    | mk folderPath children =>
      unfold sealFolders at hstep
      cases hmid : sealChildren h fh fsize fmtime hashFormat folderPath st
          (if dirHashes then
            some { format := hashFormat, items := [] } else none) children with
      | error e =>
        rw [hmid] at hstep
        exact absurd hstep (by simp)
      | ok pr =>
        cases pr with
        | mk pst pctx =>
          rw [hmid] at hstep
          have hmidObs := sealChildren_no_dir_obs h fh fsize fmtime hashFormat
            folderPath children st _ pst pctx hmid hs
          cases pctx with
          | none => exact ih pst st' hstep hmidObs
          | some c => exact ih _ st' hstep hmidObs

/-- C1: contrary to the claim, the seal engine never records a directory hash
in the generation session: for every completed seal run — directory hashes
enabled or not — the committed session contains no directory-hash observation
(append_directory_hash is never called; the finalized hash is only stored in
the local mapping). -/
theorem seal_session_records_no_directory_hash (h : MHLHistory)
    (fh : HashFormat → Path → String)
    (dh : HashFormat → List (String × String) → String)
    (fsize fmtime : Path → Nat) (inp : SealInput) (r : SealResult)
    (hrun : sealRun h fh dh fsize fmtime inp = Except.ok r) :
    r.session.observations.filter (fun o => o.isDirObs) = [] := by
  have hobs : ∀ o ∈ r.session.observations, o.isDirObs = false := by
    simp only [sealRun] at hrun
    split at hrun
    · exact absurd hrun (by simp)
    · rename_i st heq
      rw [Except.ok.injEq] at hrun
      subst hrun
      refine sealFolders_no_dir_obs h fh dh fsize fmtime inp.dirHashes
        inp.hashFormat inp.walk _ st heq ?_
      intro o ho
      exact absurd ho (List.not_mem_nil o)
  rw [List.filter_eq_nil_iff]
  intro o ho
  simp [hobs o ho]

theorem seal_session_records_no_directory_hash_witness :
    sealRun { generations := [] } (fun fmt p => fmt ++ ":" ++ p)
        (fun _ l => toString l.length) (fun _ => 0) (fun _ => 0) inpC1 =
      Except.ok (sealValue (sealRun { generations := [] }
        (fun fmt p => fmt ++ ":" ++ p) (fun _ l => toString l.length)
        (fun _ => 0) (fun _ => 0) inpC1)) ∧
    (sealValue (sealRun { generations := [] } (fun fmt p => fmt ++ ":" ++ p)
        (fun _ l => toString l.length) (fun _ => 0) (fun _ => 0)
        inpC1)).session.observations.filter (fun o => o.isDirObs) = [] :=
  ⟨rfl,
    seal_session_records_no_directory_hash { generations := [] }
      (fun fmt p => fmt ++ ":" ++ p) (fun _ l => toString l.length)
      (fun _ => 0) (fun _ => 0) inpC1
      (sealValue (sealRun { generations := [] } (fun fmt p => fmt ++ ":" ++ p)
        (fun _ l => toString l.length) (fun _ => 0) (fun _ => 0) inpC1))
      rfl⟩

theorem mem_filter_ne (p fp : Path) (l : List Path) (hp : p ∈ l)
    (hne : p ≠ fp) : p ∈ l.filter (fun q => q ≠ fp) := by
  rw [List.mem_filter]
  exact ⟨hp, by simp [hne]⟩

theorem sealChildren_notFound_preserved (h : MHLHistory)
    (fh : HashFormat → Path → String) (fsize fmtime : Path → Nat)
    (hashFormat : HashFormat) (folderPath : Path) :
    ∀ (children : List (String × Bool)) (st : SealState)
      (ctx : Option DirectoryHashContext) (st' : SealState)
      (ctx' : Option DirectoryHashContext) (p : Path),
      sealChildren h fh fsize fmtime hashFormat folderPath st ctx children =
        Except.ok (st', ctx') →
      p ∈ st.notFound →
      (∀ c ∈ children, c.2 = false → pathJoin folderPath c.1 ≠ p) →
      p ∈ st'.notFound := by
  intro children
  induction children with
  | nil =>
    intro st ctx st' ctx' p hstep hp hnc
    unfold sealChildren at hstep
    rw [Except.ok.injEq, Prod.mk.injEq] at hstep
    rw [← hstep.1]
    exact hp
  | cons c rest ih =>
    intro st ctx st' ctx' p hstep hp hnc
    unfold sealChildren at hstep
    cases hmid : sealProcessChild h fh fsize fmtime hashFormat folderPath st
        ctx c with
    | error e =>
      rw [hmid] at hstep
      exact absurd hstep (by simp)
    | ok pr =>
      cases pr with
      | mk pst pctx =>
        rw [hmid] at hstep
        have hrest : ∀ c2 ∈ rest, c2.2 = false → pathJoin folderPath c2.1 ≠ p :=
          fun c2 hc2 => hnc c2 (List.mem_cons_of_mem _ hc2)
        rcases sealProcessChild_ok_cases h fh fsize fmtime hashFormat
            folderPath st ctx c pst pctx hmid with
          ⟨_, _, hnf⟩ | ⟨hcf, _, hnf⟩
        · exact ih pst pctx st' ctx' p hstep (hnf ▸ hp) hrest
        · refine ih pst pctx st' ctx' p hstep ?_ hrest
          rw [hnf]
          exact mem_filter_ne p _ _ hp
            (fun heqp => hnc c (List.mem_cons_self _ _) hcf heqp.symm)

theorem sealFolders_notFound_preserved (h : MHLHistory)
    (fh : HashFormat → Path → String)
    (dh : HashFormat → List (String × String) → String)
    (fsize fmtime : Path → Nat) (dirHashes : Bool) (hashFormat : HashFormat) :
    ∀ (walk : List (Path × List (String × Bool))) (st st' : SealState)
      (p : Path),
      sealFolders h fh dh fsize fmtime dirHashes hashFormat st walk =
        Except.ok st' →
      p ∈ st.notFound →
      (∀ f ∈ walk, ∀ c ∈ f.2, c.2 = false → pathJoin f.1 c.1 ≠ p) →
      p ∈ st'.notFound := by
  intro walk
  induction walk with
  | nil =>
    intro st st' p hstep hp hnc
    unfold sealFolders at hstep
    rw [Except.ok.injEq] at hstep
    rw [← hstep]
    exact hp
  | cons f rest ih =>
    intro st st' p hstep hp hnc
    cases f with
    | mk folderPath children =>
      unfold sealFolders at hstep
      cases hmid : sealChildren h fh fsize fmtime hashFormat folderPath st
          (if dirHashes then
            some { format := hashFormat, items := [] } else none) children with
      | error e =>
        rw [hmid] at hstep
        exact absurd hstep (by simp)
      | ok pr =>
        cases pr with
        | mk pst pctx =>
          rw [hmid] at hstep
          have hpmem : p ∈ pst.notFound :=
            sealChildren_notFound_preserved h fh fsize fmtime hashFormat
              folderPath children st _ pst pctx p hmid hp
              (fun c hc => hnc (folderPath, children)
                (List.mem_cons_self _ _) c hc)
          have hrest : ∀ f2 ∈ rest, ∀ c ∈ f2.2, c.2 = false →
              pathJoin f2.1 c.1 ≠ p :=
            fun f2 hf2 => hnc f2 (List.mem_cons_of_mem _ hf2)
          cases pctx with
          | none => exact ih pst st' p hstep hpmem hrest
          | some c => exact ih _ st' p hstep hpmem hrest

theorem occursAsFileChild_eq_false
    (walk : List (Path × List (String × Bool))) (p : Path)
    (hocc : occursAsFileChild walk p = false) :
    ∀ f ∈ walk, ∀ c ∈ f.2, c.2 = false → pathJoin f.1 c.1 ≠ p := by
  rw [occursAsFileChild, List.any_eq_false] at hocc
  intro f hf c hc hcf heq
  have h2 := hocc f hf
  rw [List.any_eq_true] at h2
  exact h2 ⟨c, hc, by simp [hcf, heq]⟩

theorem checkChild_notFound_preserved (h : MHLHistory)
    (fh : HashFormat → Path → String) (folderPath : Path) (st : CheckState)
    (c : String × Bool) (p : Path) (hp : p ∈ st.notFound)
    (hnc : c.2 = false → pathJoin folderPath c.1 ≠ p) :
    p ∈ (checkChild h fh folderPath st c).notFound := by
  unfold checkChild
  by_cases hd : c.2 = true
  · rw [if_pos hd]
    exact hp
  · rw [if_neg hd]
    have hne : p ≠ pathJoin folderPath c.1 :=
      fun heq => hnc (Bool.eq_false_iff.mpr hd) heq.symm
    cases hrep : checkFileReport h fh (pathJoin folderPath c.1) with
    | newFile => exact hp
    | ok => exact mem_filter_ne p _ _ hp hne
    | mismatch => exact mem_filter_ne p _ _ hp hne

theorem checkChildren_notFound_preserved (h : MHLHistory)
    (fh : HashFormat → Path → String) (folderPath : Path) :
    ∀ (children : List (String × Bool)) (st : CheckState) (p : Path),
      p ∈ st.notFound →
      (∀ c ∈ children, c.2 = false → pathJoin folderPath c.1 ≠ p) →
      p ∈ (checkChildren h fh folderPath st children).notFound := by
  intro children
  induction children with
  | nil =>
    intro st p hp hnc
    exact hp
  | cons c rest ih =>
    intro st p hp hnc
    exact ih (checkChild h fh folderPath st c) p
      (checkChild_notFound_preserved h fh folderPath st c p hp
        (hnc c (List.mem_cons_self _ _)))
      (fun c2 hc2 => hnc c2 (List.mem_cons_of_mem _ hc2))

theorem checkFolders_notFound_preserved (h : MHLHistory)
    (fh : HashFormat → Path → String) :
    ∀ (walk : List (Path × List (String × Bool))) (st : CheckState) (p : Path),
      p ∈ st.notFound →
      (∀ f ∈ walk, ∀ c ∈ f.2, c.2 = false → pathJoin f.1 c.1 ≠ p) →
      p ∈ (checkFolders h fh st walk).notFound := by
  intro walk
  induction walk with
  | nil =>
    intro st p hp hnc
    exact hp
  | cons f rest ih =>
    intro st p hp hnc
    cases f with
    | mk folderPath children =>
      exact ih (checkChildren h fh folderPath st children) p
        (checkChildren_notFound_preserved h fh folderPath children st p hp
          (fun c hc => hnc (folderPath, children) (List.mem_cons_self _ _) c hc))
        (fun f2 hf2 => hnc f2 (List.mem_cons_of_mem _ hf2))

/-- C10: in both seal and check, only file children are ever discarded from
the expected-path set built from the history; a path that occurs in the
traversal only as a directory (or not at all) is never discarded, remains in
the not-found set of the run, and — whenever the run reaches the completeness
check (no verification failure) — makes it fail. -/
theorem only_file_children_discarded :
    (∀ (h : MHLHistory) (fh : HashFormat → Path → String)
      (dh : HashFormat → List (String × String) → String)
      (fsize fmtime : Path → Nat) (inp : SealInput) (r : SealResult)
      (p : Path),
      sealRun h fh dh fsize fmtime inp = Except.ok r →
      p ∈ setOfFilePaths h →
      occursAsFileChild inp.walk p = false →
      p ∈ r.notFound ∧
        (r.numFailed = 0 → r.outcome = Outcome.completenessFailed)) ∧
    (∀ (h : MHLHistory) (fh : HashFormat → Path → String)
      (walk : List (Path × List (String × Bool))) (p : Path),
      h.generations.isEmpty = false →
      p ∈ setOfFilePaths h →
      occursAsFileChild walk p = false →
      p ∈ (checkRun h fh walk).notFound ∧
        ((checkRun h fh walk).numFailed = 0 →
          (checkRun h fh walk).outcome = Outcome.completenessFailed)) := by
  constructor
  · intro h fh dh fsize fmtime inp r p hrun hexp hocc
    simp only [sealRun] at hrun
    split at hrun
    · exact absurd hrun (by simp)
    · rename_i st heq
      rw [Except.ok.injEq] at hrun
      subst hrun
      have hmem : p ∈ st.notFound :=
        sealFolders_notFound_preserved h fh dh fsize fmtime inp.dirHashes
          inp.hashFormat inp.walk _ st p heq hexp
          (occursAsFileChild_eq_false inp.walk p hocc)
      refine ⟨hmem, ?_⟩
      intro hz
      have hz' : st.numFailed = 0 := hz
      have hne : st.notFound.isEmpty = false := by
        cases hnf : st.notFound with
        | nil =>
          rw [hnf] at hmem
          exact absurd hmem (List.not_mem_nil p)
        | cons a l => rfl
      show sealOutcome st.numFailed st.notFound = Outcome.completenessFailed
      unfold sealOutcome
      rw [hz', hne]
      simp
  · intro h fh walk p hg hexp hocc
    have hmem : p ∈ (checkFolders h fh
        { numFailed := 0, numNew := 0, notFound := setOfFilePaths h }
        walk).notFound :=
      checkFolders_notFound_preserved h fh walk _ p hexp
        (occursAsFileChild_eq_false walk p hocc)
    have hne : (checkFolders h fh
        { numFailed := 0, numNew := 0, notFound := setOfFilePaths h }
        walk).notFound.isEmpty = false := by
      cases hnf : (checkFolders h fh
          { numFailed := 0, numNew := 0, notFound := setOfFilePaths h }
          walk).notFound with
      | nil =>
        rw [hnf] at hmem
        exact absurd hmem (List.not_mem_nil p)
      | cons a l => rfl
    simp only [checkRun, hg, Bool.false_eq_true, if_false]
    refine ⟨hmem, ?_⟩
    intro hz
    unfold checkOutcome
    rw [hz, hne]
    simp

theorem only_file_children_discarded_witness :
    (("/root/D" : Path) ∈ (sealValue (sealRun histC10
        (fun fmt p => fmt ++ ":" ++ p) (fun _ l => toString l.length)
        (fun _ => 0) (fun _ => 0) inpC10)).notFound ∧
      ((sealValue (sealRun histC10 (fun fmt p => fmt ++ ":" ++ p)
        (fun _ l => toString l.length) (fun _ => 0) (fun _ => 0)
        inpC10)).numFailed = 0 →
        (sealValue (sealRun histC10 (fun fmt p => fmt ++ ":" ++ p)
        (fun _ l => toString l.length) (fun _ => 0) (fun _ => 0)
        inpC10)).outcome = Outcome.completenessFailed)) ∧
    (("/root/D" : Path) ∈ (checkRun histC10 (fun fmt p => fmt ++ ":" ++ p)
        inpC10.walk).notFound ∧
      ((checkRun histC10 (fun fmt p => fmt ++ ":" ++ p)
          inpC10.walk).numFailed = 0 →
        (checkRun histC10 (fun fmt p => fmt ++ ":" ++ p)
          inpC10.walk).outcome = Outcome.completenessFailed)) :=
  ⟨only_file_children_discarded.1 histC10 (fun fmt p => fmt ++ ":" ++ p)
      (fun _ l => toString l.length) (fun _ => 0) (fun _ => 0) inpC10
      (sealValue (sealRun histC10 (fun fmt p => fmt ++ ":" ++ p)
        (fun _ l => toString l.length) (fun _ => 0) (fun _ => 0) inpC10))
      "/root/D" rfl (by decide) (by decide),
    only_file_children_discarded.2 histC10 (fun fmt p => fmt ++ ":" ++ p)
      inpC10.walk "/root/D" (by decide) (by decide) (by decide)⟩

end MhlSpec
